import Mathlib

/-!
Verification development for okPushy2 (`src/okPushy2.py`), a hotkey-driven
Maya tool that pushes/pulls the selection along the camera view axis.

The shallow embedding below translates the reachable core of the source —
the `OkPushyTool` class with its `_reset_state`, `on_press`, `on_drag` and
`on_release` methods — into pure Lean functions.  Scalars are modelled as
rationals (`ℚ`); the Maya `MVector` type becomes `Vec3`.  The host application
(the Maya `cmds` module) is an external collaborator: every host query the
source makes is a field of the `Env` structure, and every host mutation the
source performs (`undoInfo` open/close, `move`, `scale`, `refresh`) is
recorded in an ordered effect trace of type `List Effect`.  `om.MVector.normal`
requires a square root, which has no exact rational counterpart, so the
normalisation function is passed to `on_press` as an explicit parameter
`nrm`; no property proved here depends on its value.
-/

/-- Three-component vector with rational coordinates, modelling `om.MVector`. -/
structure Vec3 where
  x : ℚ
  y : ℚ
  z : ℚ
deriving DecidableEq, Repr

instance : Add Vec3 := ⟨fun a b => ⟨a.x + b.x, a.y + b.y, a.z + b.z⟩⟩

instance : Sub Vec3 := ⟨fun a b => ⟨a.x - b.x, a.y - b.y, a.z - b.z⟩⟩

/-- `MVector * scalar`, as used throughout the source (`v * change * 2` etc.). -/
instance : HMul Vec3 ℚ Vec3 := ⟨fun v c => ⟨v.x * c, v.y * c, v.z * c⟩⟩

/-- The zero vector, the value of `om.MVector()` with no arguments. -/
def Vec3.zero : Vec3 := ⟨0, 0, 0⟩

instance : Inhabited Vec3 := ⟨Vec3.zero⟩

/-- One observable call from the tool into the host application:
`cmds.undoInfo(openChunk=True)`, `cmds.undoInfo(closeChunk=True)`,
`cmds.move(...)`, `cmds.scale(...)` and `cmds.refresh()`. -/
inductive Effect where
  | openChunk
  | closeChunk
  | move (item : String) (pos : Vec3)
  | scaleSet (item : String) (scl : Vec3)
  | refresh
deriving DecidableEq, Repr

/-- Decides whether `pat` occurs as a contiguous sublist of the second list;
used to model the Python substring operator `in` on identifier strings. -/
def listHasSub (pat : List Char) : List Char → Bool
  | [] => decide (pat = [])
  | c :: rest => pat.isPrefixOf (c :: rest) || listHasSub pat rest

/-- Python test `pat in s` on strings. -/
def strContains (s pat : String) : Bool := listHasSub pat.toList s.toList

/-- `'.' in item`: the identifier names a component (line 115 of the source). -/
def hasDot (item : String) : Bool := strContains item "."

/-- `".f[" in s or ".e[" in s`: the identifier names a face or an edge
(line 119 of the source). -/
def isFaceOrEdge (s : String) : Bool := strContains s ".f[" || strContains s ".e["

/-- The host environment visible during one press/drag gesture: the results of
every Maya query the source issues.  Functions model host APIs applied to
whatever argument the tool passes. -/
structure Env where
  /-- `cmds.getPanel(withFocus=True)` yields a panel whose type contains
  `"modelPanel"` (line 102-103). -/
  panelIsModel : Bool
  /-- `cmds.getAttr(cam_shape + ".orthographic")` (line 108). -/
  camIsOrtho : Bool
  /-- `cmds.getAttr(cam_transform + ".worldMatrix[0]")`, a flat 16-entry
  row-major matrix; the source reads entries 8, 9, 10 (line 147-148). -/
  camMatrix : List ℚ
  /-- `cmds.xform(cam_transform, q, ws, t)` (line 158). -/
  camWorldPos : Vec3
  /-- `cmds.ls(selection=True, long=True, flatten=True)` (line 110). -/
  selectionRaw : List String
  /-- Whether `cmds.ls(_, type="transform")` keeps an item (line 131). -/
  isTransform : String → Bool
  /-- `cmds.ls(cmds.polyListComponentConversion(sel, toVertex=True), flatten=True,
  long=True)`: whole-selection conversion to a flat vertex list (lines 124-125). -/
  convertToVertices : List String → List String
  /-- `cmds.xform(item, q, ws, t)` per target (line 140). -/
  worldTranslation : String → Vec3
  /-- `cmds.listRelatives(sel, shapes=True, noIntermediate=True, fullPath=True)`,
  `none` when Maya returns `None` (line 152). -/
  shapesOf : List String → Option (List String)
  /-- `cmds.exactWorldBoundingBox(nodes, ignoreInvisible=True)` as the pair
  (min corner, max corner); `none` when the query yields nothing (line 153). -/
  boundingBox : List String → Option (Vec3 × Vec3)
  /-- `cmds.getAttr(item + ".scale")[0]` (line 164). -/
  scaleOf : String → Vec3
  /-- `cmds.draggerContext(q, modifier=True)` (line 136). -/
  modifier : String
  /-- `cmds.draggerContext(q, anchorPoint=True)` (line 167). -/
  anchorPoint : ℚ × ℚ
  /-- `cmds.draggerContext(q, dragPoint=True)` (line 175). -/
  dragPoint : ℚ × ℚ

/-- The mutable per-drag state of `OkPushyTool`, one field per Python
attribute assigned in `__init__` / `_reset_state`. -/
structure ToolState where
  former_context : String
  is_ready : Bool
  selection : List String
  is_ortho : Bool
  is_component_mode : Bool
  scale_compensate : Bool
  initial_positions : List Vec3
  initial_vectors : List Vec3
  /-- The Python dict `initial_scales` as an association list in insertion
  order; keys are distinct because each is inserted once per loop item. -/
  initial_scales : List (String × Vec3)
  camera_pos : Vec3
  initial_avg_pos : Vec3
  cam_to_avg_vec : Vec3
  view_direction : Vec3
  anchor_point : ℚ × ℚ
deriving DecidableEq, Repr

/-- `OkPushyTool._reset_state` (lines 58-72): resets every per-drag attribute,
leaving only `former_context` (set in `__init__` / `activate`) untouched. -/
def reset_state (s : ToolState) : ToolState :=
  { former_context := s.former_context
    is_ready := false
    selection := []
    is_ortho := false
    is_component_mode := false
    scale_compensate := false
    initial_positions := []
    initial_vectors := []
    initial_scales := []
    camera_pos := Vec3.zero
    initial_avg_pos := Vec3.zero
    cam_to_avg_vec := Vec3.zero
    view_direction := Vec3.zero
    anchor_point := (0, 0) }

/-- The fresh state built by `OkPushyTool.__init__` (lines 53-56). -/
def initState : ToolState :=
  { former_context := ""
    is_ready := false
    selection := []
    is_ortho := false
    is_component_mode := false
    scale_compensate := false
    initial_positions := []
    initial_vectors := []
    initial_scales := []
    camera_pos := Vec3.zero
    initial_avg_pos := Vec3.zero
    cam_to_avg_vec := Vec3.zero
    view_direction := Vec3.zero
    anchor_point := (0, 0) }

/-- `OkPushyTool.SENSITIVITY = 0.005` (line 51). -/
def SENSITIVITY : ℚ := 5 / 1000

/-- Resolution of the raw selection into the per-session target list
(lines 115-131): component mode converts the whole selection to vertices when
any face or edge is present, keeps it unchanged when it is vertices/CVs only,
and object mode filters the raw selection to transform nodes. -/
def resolveTargets (env : Env) (compMode : Bool) : List String :=
  if compMode then
    if env.selectionRaw.any isFaceOrEdge then
      env.convertToVertices env.selectionRaw
    else
      env.selectionRaw
  else
    env.selectionRaw.filter env.isTransform

/-- `OkPushyTool.on_press` (lines 95-168).  Returns the state after the call
together with the ordered trace of host mutations it performed.  `nrm` stands
for `om.MVector.normal` (exact normalisation is not rational-valued); it only
affects the stored `view_direction`. -/
def on_press (nrm : Vec3 → Vec3) (env : Env) (s0 : ToolState) : ToolState × List Effect :=
  let s := reset_state s0
  if env.panelIsModel = false then
    (s, [Effect.openChunk, Effect.closeChunk])
  else
    let s := { s with is_ortho := env.camIsOrtho }
    if env.selectionRaw = [] then
      (s, [Effect.openChunk, Effect.closeChunk])
    else
      let compMode := env.selectionRaw.any hasDot
      let targets := resolveTargets env compMode
      let s := { s with is_component_mode := compMode, selection := targets }
      if targets = [] then
        (s, [Effect.openChunk, Effect.closeChunk])
      else
        let sc := (env.modifier == "ctrl") || (s.former_context == "scaleSuperContext")
        let ipos := targets.map env.worldTranslation
        let s := { s with scale_compensate := sc, initial_positions := ipos }
        if ipos = [] then
          (s, [Effect.openChunk, Effect.closeChunk])
        else
          if s.is_ortho then
            let zAxis : Vec3 :=
              ⟨env.camMatrix.getD 8 0, env.camMatrix.getD 9 0, env.camMatrix.getD 10 0⟩
            let s := { s with view_direction := nrm (zAxis * (-1 : ℚ)) }
            ({ s with anchor_point := env.anchorPoint, is_ready := true },
             [Effect.openChunk])
          else
            let bboxNodes :=
              if compMode then targets
              else
                match env.shapesOf targets with
                | some (n :: rest) => n :: rest
                | _ => targets
            match env.boundingBox bboxNodes with
            | none => (s, [Effect.openChunk, Effect.closeChunk])
            | some (mn, mx) =>
              let avg : Vec3 := ⟨(mn.x + mx.x) / 2, (mn.y + mx.y) / 2, (mn.z + mx.z) / 2⟩
              let s := { s with
                initial_avg_pos := avg
                camera_pos := env.camWorldPos
                cam_to_avg_vec := avg - env.camWorldPos
                initial_vectors := ipos.map (fun p => p - avg) }
              let s :=
                if sc && !compMode then
                  { s with initial_scales := targets.map (fun it => (it, env.scaleOf it)) }
                else s
              ({ s with anchor_point := env.anchorPoint, is_ready := true },
               [Effect.openChunk])

/-- The screen-space drag delta `change` (line 176). -/
def dragDelta (env : Env) (s : ToolState) : ℚ :=
  (env.dragPoint.1 - s.anchor_point.1) * SENSITIVITY

/-- The host calls issued for target index `i` in the perspective drag loop
(lines 187-196): one absolute move, followed by an absolute scale when the
item has a recorded initial scale. -/
def perspTargetEffects (s : ToolState) (change : ℚ) (i : Nat) : List Effect :=
  let change_depth := 1 + change
  let new_avg_pos := s.camera_pos + s.cam_to_avg_vec * change_depth
  let item := s.selection.getD i ""
  let scale_factor : ℚ := if s.scale_compensate then change_depth else 1
  let new_pos := new_avg_pos + s.initial_vectors.getD i Vec3.zero * scale_factor
  Effect.move item new_pos ::
    (match List.lookup item s.initial_scales with
     | some initial_scale => [Effect.scaleSet item (initial_scale * scale_factor)]
     | none => [])

/-- `OkPushyTool.on_drag` (lines 170-197).  The state is never mutated by a
drag; the returned trace lists the moves (and scales) in target order followed
by the viewport refresh.  A drag while not ready returns immediately with no
effect. -/
def on_drag (env : Env) (s : ToolState) : ToolState × List Effect :=
  if s.is_ready = false then (s, [])
  else
    let change := dragDelta env s
    if s.is_ortho then
      let total_move_vector := s.view_direction * change * (2 : ℚ)
      (s, ((List.range s.selection.length).map (fun i =>
             Effect.move (s.selection.getD i "")
               (s.initial_positions.getD i Vec3.zero + total_move_vector)))
          ++ [Effect.refresh])
    else
      (s, ((List.range s.selection.length).flatMap (perspTargetEffects s change))
          ++ [Effect.refresh])

/-- `OkPushyTool.on_release` (lines 199-202): close the undo chunk, reset. -/
def on_release (s : ToolState) : ToolState × List Effect :=
  (reset_state s, [Effect.closeChunk])

/-- One input-context callback from the host, with the host environment the
tool observes while handling it. -/
inductive Event where
  | press (env : Env)
  | drag (env : Env)
  | release

/-- Dispatch of one event to its handler. -/
def step (nrm : Vec3 → Vec3) : Event → ToolState → ToolState × List Effect
  | .press env, s => on_press nrm env s
  | .drag env, s => on_drag env s
  | .release, s => on_release s

/-- The state reached from `s` after a sequence of events. -/
def run (nrm : Vec3 → Vec3) (es : List Event) (s : ToolState) : ToolState :=
  es.foldl (fun t e => (step nrm e t).1) s

/-- Number of `openChunk` calls in a trace. -/
def opens (l : List Effect) : Nat := l.count Effect.openChunk

/-- Number of `closeChunk` calls in a trace. -/
def closes (l : List Effect) : Nat := l.count Effect.closeChunk

/-- Whether an effect is a mutation of the scene (`cmds.move` / `cmds.scale`). -/
def Effect.isMutation : Effect → Bool
  | .move _ _ => true
  | .scaleSet _ _ => true
  | _ => false

/-- Number of scene mutations in a trace. -/
def mutations (l : List Effect) : Nat := l.countP Effect.isMutation

/-- Invariant tying the parallel per-target arrays to the target list: one
initial position per target, in perspective mode one initial vector per
target, and every recorded scale keyed by a target. -/
def sessionInv (s : ToolState) : Prop :=
  s.initial_positions.length = s.selection.length ∧
  (s.is_ortho = false → s.initial_vectors.length = s.selection.length) ∧
  (∀ p ∈ s.initial_scales, p.1 ∈ s.selection)

/-- Concrete host environment: orthographic viewport, one transform selected.
Used to exercise a successful orthographic press. -/
def envW : Env :=
  { panelIsModel := true
    camIsOrtho := true
    camMatrix := [1, 0, 0, 0, 0, 1, 0, 0, 0, 0, 1, 0, 0, 0, 0, 1]
    camWorldPos := ⟨0, 0, 10⟩
    selectionRaw := ["|pCube1"]
    isTransform := fun _ => true
    convertToVertices := fun l => l
    worldTranslation := fun _ => ⟨1, 2, 3⟩
    shapesOf := fun _ => none
    boundingBox := fun _ => some (⟨0, 0, 0⟩, ⟨2, 2, 2⟩)
    scaleOf := fun _ => ⟨1, 1, 1⟩
    modifier := ""
    anchorPoint := (10, 20)
    dragPoint := (110, 20) }

/-- Concrete host environment with a focused model panel but an empty
selection: the press must abort. -/
def envEmpty : Env :=
  { envW with selectionRaw := [] }

/-- Concrete host environment with a mixed vertex + face component selection;
the host conversion of the whole selection yields four distinct vertices. -/
def envComp : Env :=
  { envW with
    camIsOrtho := false
    selectionRaw := ["|pCube1.vtx[0]", "|pCube1.f[2]"]
    convertToVertices := fun _ =>
      ["|pCube1.vtx[0]", "|pCube1.vtx[1]", "|pCube1.vtx[2]", "|pCube1.vtx[3]"] }

/-- Concrete host environment with a vertex-only component selection. -/
def envVtx : Env :=
  { envW with
    camIsOrtho := false
    selectionRaw := ["|pCube1.vtx[0]", "|pCube1.vtx[5]"] }

/-- Concrete armed orthographic session with two targets. -/
def sOrtho : ToolState :=
  { initState with
    is_ready := true
    is_ortho := true
    selection := ["|a", "|b"]
    initial_positions := [⟨0, 0, 0⟩, ⟨2, 0, 0⟩]
    view_direction := ⟨0, 0, -1⟩
    anchor_point := (0, 0) }

/-- Concrete armed perspective session (no scale compensation): the worked
scenario of the specification, two vertices at the origin and at (2,0,0)
seen from a camera at (0,0,10). -/
def sPersp : ToolState :=
  { initState with
    is_ready := true
    is_ortho := false
    scale_compensate := false
    selection := ["|p.vtx[0]", "|p.vtx[1]"]
    initial_positions := [⟨0, 0, 0⟩, ⟨2, 0, 0⟩]
    initial_vectors := [⟨-1, 0, 0⟩, ⟨1, 0, 0⟩]
    camera_pos := ⟨0, 0, 10⟩
    initial_avg_pos := ⟨1, 0, 0⟩
    cam_to_avg_vec := ⟨1, 0, -10⟩
    anchor_point := (0, 0) }

/-- Concrete armed perspective session with scale compensation and one
recorded initial scale. -/
def sPerspSC : ToolState :=
  { sPersp with
    selection := ["|a", "|b"]
    scale_compensate := true
    initial_scales := [("|a", ⟨1, 2, 1⟩)] }

/-- Environment whose drag point is 100 px right of the `sPersp` anchor:
drag delta 0.5. -/
def envDragHalf : Env :=
  { envW with dragPoint := (100, 0) }

/-- Environment whose drag point is 400 px left of the anchor: drag delta
-2, hence a negative depth factor of -1. -/
def envDragNeg : Env :=
  { envW with dragPoint := (-400, 0) }

theorem Vec3.smul_def (v : Vec3) (c : ℚ) : v * c = ⟨v.x * c, v.y * c, v.z * c⟩ := rfl

theorem Vec3.mul_one (v : Vec3) : v * (1 : ℚ) = v := by
  rw [Vec3.smul_def]; simp

/-- `on_drag` never writes any session state: the state component of the returned pair is
the input state on every path. -/
theorem on_drag_state (env : Env) (s : ToolState) : (on_drag env s).1 = s := by
  unfold on_drag
  split
  · rfl
  · split <;> rfl

/-- Every run of `on_press` is either an abort — not ready, trace exactly
open-then-close — or an arm — ready, trace exactly one open. -/
theorem on_press_shape (nrm : Vec3 → Vec3) (env : Env) (s : ToolState) :
    ((on_press nrm env s).1.is_ready = false ∧
      (on_press nrm env s).2 = [Effect.openChunk, Effect.closeChunk]) ∨
    ((on_press nrm env s).1.is_ready = true ∧
      (on_press nrm env s).2 = [Effect.openChunk]) := by
  simp only [on_press]
  repeat' split
  all_goals first | (left; exact ⟨rfl, rfl⟩) | (right; exact ⟨rfl, rfl⟩)

/-- After `on_press`, either the session is not ready or the parallel-array
invariant holds. -/
theorem on_press_inv_or (nrm : Vec3 → Vec3) (env : Env) (s : ToolState) :
    (on_press nrm env s).1.is_ready = false ∨ sessionInv (on_press nrm env s).1 := by
  simp only [on_press]
  repeat' split
  all_goals first | (left; rfl) | (right; simp_all [sessionInv, reset_state])

/-- When the press gets past the panel and the empty-selection guards, the
stored target list is exactly the resolution of the raw selection. -/
theorem on_press_selection (nrm : Vec3 → Vec3) (env : Env) (s : ToolState)
    (hpanel : env.panelIsModel = true) (hsel : env.selectionRaw ≠ []) :
    (on_press nrm env s).1.selection = resolveTargets env (env.selectionRaw.any hasDot) := by
  simp only [on_press, hpanel, hsel]
  repeat' split
  all_goals first | rfl | simp_all [reset_state]

/-- With an orthographic camera the press never records any initial scale:
the `initial_scales` dict is only populated inside the perspective branch. -/
theorem on_press_ortho_no_scales (nrm : Vec3 → Vec3) (env : Env) (s : ToolState)
    (hortho : env.camIsOrtho = true) :
    (on_press nrm env s).1.initial_scales = [] := by
  simp only [on_press]
  repeat' split
  all_goals first | rfl | simp_all [reset_state]

/-- The full host-call trace of an orthographic drag: one absolute move per
target, in order, followed by one refresh. -/
theorem on_drag_ortho_trace (env : Env) (s : ToolState)
    (hready : s.is_ready = true) (hortho : s.is_ortho = true) :
    (on_drag env s).2 =
      (List.range s.selection.length).map (fun i =>
        Effect.move (s.selection.getD i "")
          (s.initial_positions.getD i Vec3.zero +
            s.view_direction * dragDelta env s * (2 : ℚ))) ++ [Effect.refresh] := by
  simp [on_drag, hready, hortho]

/-- The full host-call trace of a perspective drag: the per-target effect
groups in order, followed by one refresh. -/
theorem on_drag_persp_trace (env : Env) (s : ToolState)
    (hready : s.is_ready = true) (hpersp : s.is_ortho = false) :
    (on_drag env s).2 =
      (List.range s.selection.length).flatMap (perspTargetEffects s (dragDelta env s)) ++
        [Effect.refresh] := by
  simp [on_drag, hready, hpersp]

/-- Every effect a drag emits is a move, a scale or a refresh — never an
undo-chunk boundary. -/
theorem mem_on_drag_trace (env : Env) (s : ToolState) (e : Effect)
    (he : e ∈ (on_drag env s).2) :
    (∃ it p, e = Effect.move it p) ∨ (∃ it v, e = Effect.scaleSet it v) ∨ e = Effect.refresh := by
  unfold on_drag at he
  split at he
  · simp at he
  · split at he
    · simp only [List.mem_append, List.mem_map, List.mem_singleton] at he
      rcases he with ⟨i, _, rfl⟩ | rfl
      · exact Or.inl ⟨_, _, rfl⟩
      · exact Or.inr (Or.inr rfl)
    · simp only [List.mem_append, List.mem_flatMap, List.mem_singleton] at he
      rcases he with ⟨i, _, hmem⟩ | rfl
      · simp only [perspTargetEffects, List.mem_cons] at hmem
        rcases hmem with rfl | hmem
        · exact Or.inl ⟨_, _, rfl⟩
        · split at hmem
          · simp at hmem
            subst hmem
            exact Or.inr (Or.inl ⟨_, _, rfl⟩)
          · simp at hmem
      · exact Or.inr (Or.inr rfl)

/-- C1 (counterexample): pressing with a focused model panel and an empty
selection leaves the session not ready, but a mutation transaction IS opened
(and then closed) — the claim that no mutation transaction was opened is false
on this input. -/
theorem press_empty_selection_opens_transaction_cex :
    envEmpty.selectionRaw = [] ∧
    (on_press id envEmpty initState).1.is_ready = false ∧
    Effect.openChunk ∈ (on_press id envEmpty initState).2 := by
  decide

/-- C1 (amended): pressing with an empty selection leaves the ready flag
false and issues no mutation calls; the transaction opened at entry is closed
before returning, so no transaction is left open.  More generally, every
validation failure in `on_press` (any run that ends not ready) produces the
trace open-chunk/close-chunk with zero scene mutations. -/
theorem press_empty_selection_aborts (nrm : Vec3 → Vec3) (env : Env) (s : ToolState)
    (hsel : env.selectionRaw = []) :
    ((on_press nrm env s).1.is_ready = false ∧
     (on_press nrm env s).2 = [Effect.openChunk, Effect.closeChunk] ∧
     mutations (on_press nrm env s).2 = 0) ∧
    (∀ env2 t, (on_press nrm env2 t).1.is_ready = false →
       (on_press nrm env2 t).2 = [Effect.openChunk, Effect.closeChunk] ∧
       mutations (on_press nrm env2 t).2 = 0) := by
  constructor
  · simp [on_press, hsel]
    repeat' split
    all_goals first | exact ⟨rfl, rfl, rfl⟩ | simp_all [reset_state, mutations]
  · intro env2 t hready
    rcases on_press_shape nrm env2 t with ⟨_, h2⟩ | ⟨h1, _⟩
    · exact ⟨h2, by rw [h2]; rfl⟩
    · rw [hready] at h1
      cases h1

/-- C1 witness: the amended statement at the concrete empty-selection
environment. -/
theorem press_empty_selection_aborts_witness :
    ((on_press id envEmpty initState).1.is_ready = false ∧
     (on_press id envEmpty initState).2 = [Effect.openChunk, Effect.closeChunk] ∧
     mutations (on_press id envEmpty initState).2 = 0) ∧
    (∀ env2 t, (on_press id env2 t).1.is_ready = false →
       (on_press id env2 t).2 = [Effect.openChunk, Effect.closeChunk] ∧
       mutations (on_press id env2 t).2 = 0) :=
  press_empty_selection_aborts id envEmpty initState rfl

/-- C2: in an armed orthographic session, the i-th host call of the drag moves
target i to `initialPositions[i] + viewDirection * delta * 2` with
`delta = (dragPoint.x - anchorPoint.x) * SENSITIVITY` — the added vector does
not depend on `i`, so the whole selection gets one uniform translation. -/
theorem ortho_drag_uniform_translation (env : Env) (s : ToolState)
    (hready : s.is_ready = true) (hortho : s.is_ortho = true)
    (i : Nat) (hi : i < s.selection.length) :
    ((on_drag env s).2)[i]? =
      some (Effect.move (s.selection.getD i "")
        (s.initial_positions.getD i Vec3.zero +
          s.view_direction * ((env.dragPoint.1 - s.anchor_point.1) * SENSITIVITY) * (2 : ℚ))) := by
  rw [on_drag_ortho_trace env s hready hortho]
  simp [List.getElem?_append, List.getElem?_range, hi, dragDelta]

/-- C2 witness: the orthographic law at a concrete armed two-target session,
target index 0, with a 100 px drag. -/
theorem ortho_drag_uniform_translation_witness :
    sOrtho.is_ready = true ∧ sOrtho.is_ortho = true ∧ 0 < sOrtho.selection.length ∧
    ((on_drag envDragHalf sOrtho).2)[0]? =
      some (Effect.move (sOrtho.selection.getD 0 "")
        (sOrtho.initial_positions.getD 0 Vec3.zero +
          sOrtho.view_direction *
            ((envDragHalf.dragPoint.1 - sOrtho.anchor_point.1) * SENSITIVITY) * (2 : ℚ))) :=
  ⟨rfl, rfl, by decide,
    ortho_drag_uniform_translation envDragHalf sOrtho rfl rfl 0 (by decide)⟩

/-- C3: in an armed perspective session without scale compensation, the drag
moves target i to `newCentroid + initialVectors[i]` where
`newCentroid = cameraPos + camToAvgVec * (1 + delta)` — offsets from the
centroid are unchanged and the depth factor `1 + delta` is not clamped (the
statement holds for every drag point, including those with `1 + delta < 0`). -/
theorem persp_drag_moves_centroid_only (env : Env) (s : ToolState)
    (hready : s.is_ready = true) (hpersp : s.is_ortho = false)
    (hsc : s.scale_compensate = false)
    (i : Nat) (hi : i < s.selection.length) :
    Effect.move (s.selection.getD i "")
      (s.camera_pos + s.cam_to_avg_vec * (1 + dragDelta env s) +
        s.initial_vectors.getD i Vec3.zero) ∈ (on_drag env s).2 := by
  rw [on_drag_persp_trace env s hready hpersp]
  apply List.mem_append_left
  refine List.mem_flatMap.mpr ⟨i, List.mem_range.mpr hi, ?_⟩
  simp [perspTargetEffects, hsc, Vec3.mul_one]

/-- C3 witness: the perspective no-compensation law at a concrete session
with a drag so far left that the depth factor is -1 (negative, accepted). -/
theorem persp_drag_moves_centroid_only_witness :
    sPersp.is_ready = true ∧ sPersp.is_ortho = false ∧
    sPersp.scale_compensate = false ∧ 0 < sPersp.selection.length ∧
    1 + dragDelta envDragNeg sPersp < 0 ∧
    Effect.move (sPersp.selection.getD 0 "")
      (sPersp.camera_pos + sPersp.cam_to_avg_vec * (1 + dragDelta envDragNeg sPersp) +
        sPersp.initial_vectors.getD 0 Vec3.zero) ∈ (on_drag envDragNeg sPersp).2 :=
  ⟨rfl, rfl, rfl, by decide,
    by norm_num [dragDelta, SENSITIVITY, envDragNeg, envW, sPersp, initState],
    persp_drag_moves_centroid_only envDragNeg sPersp rfl rfl rfl 0 (by decide)⟩

/-- C4: in an armed perspective session with scale compensation, the drag
moves target i to `newCentroid + initialVectors[i] * (1 + delta)` (offsets
scale by the depth factor), and every target with a recorded initial scale is
rescaled to `initialScale * (1 + delta)`. -/
theorem persp_drag_scale_compensation (env : Env) (s : ToolState)
    (hready : s.is_ready = true) (hpersp : s.is_ortho = false)
    (hsc : s.scale_compensate = true)
    (i : Nat) (hi : i < s.selection.length) :
    Effect.move (s.selection.getD i "")
      (s.camera_pos + s.cam_to_avg_vec * (1 + dragDelta env s) +
        s.initial_vectors.getD i Vec3.zero * (1 + dragDelta env s)) ∈ (on_drag env s).2 ∧
    (∀ scl, List.lookup (s.selection.getD i "") s.initial_scales = some scl →
       Effect.scaleSet (s.selection.getD i "") (scl * (1 + dragDelta env s)) ∈
         (on_drag env s).2) := by
  rw [on_drag_persp_trace env s hready hpersp]
  constructor
  · apply List.mem_append_left
    refine List.mem_flatMap.mpr ⟨i, List.mem_range.mpr hi, ?_⟩
    simp [perspTargetEffects, hsc]
  · intro scl hscl
    apply List.mem_append_left
    refine List.mem_flatMap.mpr ⟨i, List.mem_range.mpr hi, ?_⟩
    simp only [perspTargetEffects, List.mem_cons]
    rw [hscl]
    simp [hsc]

/-- C4 witness: the compensation law at a concrete session whose first target
has a recorded initial scale, with depth factor -1. -/
theorem persp_drag_scale_compensation_witness :
    sPerspSC.is_ready = true ∧ sPerspSC.is_ortho = false ∧
    sPerspSC.scale_compensate = true ∧ 0 < sPerspSC.selection.length ∧
    List.lookup (sPerspSC.selection.getD 0 "") sPerspSC.initial_scales = some ⟨1, 2, 1⟩ ∧
    Effect.scaleSet (sPerspSC.selection.getD 0 "")
      ((⟨1, 2, 1⟩ : Vec3) * (1 + dragDelta envDragNeg sPerspSC)) ∈
        (on_drag envDragNeg sPerspSC).2 :=
  ⟨rfl, rfl, rfl, by decide, by decide,
    (persp_drag_scale_compensation envDragNeg sPerspSC rfl rfl rfl 0 (by decide)).2
      ⟨1, 2, 1⟩ (by decide)⟩

/-- C5: in component mode, a selection containing a face or an edge makes the
press convert the WHOLE raw selection through the host vertex conversion and
use its output verbatim as the target list — so the targets inherit the
guarantees of the conversion (vertex-only entries via any predicate `P`, no
duplicates, length = number of distinct converted vertices); a vertex/CV-only
selection is used unchanged. -/
theorem component_selection_resolution (nrm : Vec3 → Vec3) (env : Env) (s : ToolState)
    (P : String → Prop)
    (hpanel : env.panelIsModel = true) (hsel : env.selectionRaw ≠ [])
    (hcomp : env.selectionRaw.any hasDot = true) :
    (env.selectionRaw.any isFaceOrEdge = true →
       (on_press nrm env s).1.selection = env.convertToVertices env.selectionRaw ∧
       ((env.convertToVertices env.selectionRaw).Nodup →
          (on_press nrm env s).1.selection.Nodup ∧
          (on_press nrm env s).1.selection.length =
            (env.convertToVertices env.selectionRaw).toFinset.card) ∧
       ((∀ v ∈ env.convertToVertices env.selectionRaw, P v) →
          ∀ v ∈ (on_press nrm env s).1.selection, P v)) ∧
    (env.selectionRaw.any isFaceOrEdge = false →
       (on_press nrm env s).1.selection = env.selectionRaw) := by
  have hs := on_press_selection nrm env s hpanel hsel
  rw [hcomp] at hs
  constructor
  · intro hfe
    have hsel2 : (on_press nrm env s).1.selection = env.convertToVertices env.selectionRaw := by
      rw [hs]; simp [resolveTargets, hfe]
    refine ⟨hsel2, ?_, ?_⟩
    · intro hnd
      rw [hsel2]
      exact ⟨hnd, (List.toFinset_card_of_nodup hnd).symm⟩
    · intro hall v hv
      rw [hsel2] at hv
      exact hall v hv
  · intro hfe
    rw [hs]; simp [resolveTargets, hfe]

/-- C5 witness: the mixed vertex+face selection of `envComp` resolves to the
four-vertex host conversion (all vertex identifiers, no duplicates), and
the vertex-only selection of `envVtx` is kept unchanged. -/
theorem component_selection_resolution_witness :
    ((on_press id envComp initState).1.selection =
       envComp.convertToVertices envComp.selectionRaw ∧
     (on_press id envComp initState).1.selection.Nodup ∧
     (on_press id envComp initState).1.selection.length =
       (envComp.convertToVertices envComp.selectionRaw).toFinset.card ∧
     (∀ v ∈ (on_press id envComp initState).1.selection, strContains v ".vtx[" = true)) ∧
    (on_press id envVtx initState).1.selection = envVtx.selectionRaw := by
  have h1 := (component_selection_resolution id envComp initState
      (fun v => strContains v ".vtx[" = true) rfl (by decide) (by decide)).1 (by decide)
  have h2 := (component_selection_resolution id envVtx initState
      (fun v => strContains v ".vtx[" = true) rfl (by decide) (by decide)).2 (by decide)
  exact ⟨⟨h1.1, (h1.2.1 (by decide)).1, (h1.2.1 (by decide)).2, h1.2.2 (by decide)⟩, h2⟩

/-- No drag ever opens or closes an undo chunk. -/
theorem on_drag_no_chunks (env : Env) (t : ToolState) :
    opens (on_drag env t).2 = 0 ∧ closes (on_drag env t).2 = 0 := by
  constructor <;>
  · simp only [opens, closes]
    rw [List.count_eq_zero]
    intro hmem
    rcases mem_on_drag_trace env t _ hmem with ⟨it, p, h⟩ | ⟨it, v, h⟩ | h <;> cases h

/-- C6: the undo transaction is balanced across every session: each press
opens exactly one chunk; a failed press closes it itself (trace
open-then-close), an armed press followed by the release closes it exactly
once (combined trace open-then-close); drags never touch chunk boundaries. -/
theorem undo_transaction_balanced (nrm : Vec3 → Vec3) (env : Env) (s : ToolState) :
    opens (on_press nrm env s).2 = 1 ∧
    (((on_press nrm env s).1.is_ready = false ∧
      (on_press nrm env s).2 = [Effect.openChunk, Effect.closeChunk]) ∨
     ((on_press nrm env s).1.is_ready = true ∧
      (on_press nrm env s).2 ++ (on_release (on_press nrm env s).1).2 =
        [Effect.openChunk, Effect.closeChunk])) ∧
    (∀ env2 t, opens (on_drag env2 t).2 = 0 ∧ closes (on_drag env2 t).2 = 0) := by
  refine ⟨?_, ?_, fun env2 t => on_drag_no_chunks env2 t⟩
  · rcases on_press_shape nrm env s with ⟨_, h2⟩ | ⟨_, h2⟩ <;> rw [h2] <;> rfl
  · rcases on_press_shape nrm env s with ⟨h1, h2⟩ | ⟨h1, h2⟩
    · exact Or.inl ⟨h1, h2⟩
    · exact Or.inr ⟨h1, by rw [h2]; rfl⟩

/-- One step preserves the ready-implies-consistent invariant. -/
theorem step_preserves_inv (nrm : Vec3 → Vec3) (e : Event) (s : ToolState)
    (h : s.is_ready = true → sessionInv s) :
    (step nrm e s).1.is_ready = true → sessionInv (step nrm e s).1 := by
  cases e with
  | press env =>
    intro hr
    rcases on_press_inv_or nrm env s with h1 | h1
    · rw [show (step nrm (Event.press env) s).1 = (on_press nrm env s).1 from rfl] at hr
      rw [hr] at h1
      cases h1
    · exact h1
  | drag env =>
    rw [show (step nrm (Event.drag env) s).1 = s from on_drag_state env s]
    exact h
  | release =>
    intro hr
    rw [show (step nrm Event.release s).1 = reset_state s from rfl] at hr
    cases hr

/-- The invariant transported along any event sequence. -/
theorem run_preserves_inv (nrm : Vec3 → Vec3) (es : List Event) :
    ∀ s : ToolState, (s.is_ready = true → sessionInv s) →
      ((run nrm es s).is_ready = true → sessionInv (run nrm es s)) := by
  induction es with
  | nil => exact fun s h => h
  | cons e es ih => exact fun s h => ih _ (step_preserves_inv nrm e s h)

/-- C7: after any event sequence from the fresh state, a ready session has one
initial position per target, in perspective mode one initial vector per
target, and only targets as scale keys; moreover a press on ANY prior state
behaves exactly as a press on the reset of that state (the handler resets all
per-drag state before re-arming). -/
theorem armed_session_arrays_consistent (nrm : Vec3 → Vec3) (es : List Event)
    (hready : (run nrm es initState).is_ready = true) :
    sessionInv (run nrm es initState) ∧
    (∀ env t, on_press nrm env t = on_press nrm env (reset_state t)) :=
  ⟨run_preserves_inv nrm es initState (fun h => absurd h (by decide)) hready,
   fun _ _ => rfl⟩

/-- C7 witness: a successful orthographic press from the fresh state yields a
ready session, on which the consistency conclusions hold. -/
theorem armed_session_arrays_consistent_witness :
    sessionInv (run id [Event.press envW] initState) ∧
    (∀ env t, on_press id env t = on_press id env (reset_state t)) :=
  armed_session_arrays_consistent id [Event.press envW] (by decide)

/-- C8: a drag received while the session is idle is a complete no-op: the
state is returned unchanged and the effect trace is empty (no move, no scale,
no refresh), for any idle state however it was reached. -/
theorem idle_drag_is_noop (env : Env) (s : ToolState) (h : s.is_ready = false) :
    on_drag env s = (s, []) := by
  simp [on_drag, h]

/-- C8 witness: a drag on the fresh (idle) state does nothing. -/
theorem idle_drag_is_noop_witness :
    initState.is_ready = false ∧ on_drag envW initState = (initState, []) :=
  ⟨rfl, idle_drag_is_noop envW initState rfl⟩

/-- C9: releasing is idempotent on session state: one release resets every
per-drag field (the state equals `reset_state` of the input, ready false), and
a second release returns the identical state and the identical trace. -/
theorem release_idempotent (s : ToolState) :
    (on_release s).1 = reset_state s ∧
    (on_release s).1.is_ready = false ∧
    on_release ((on_release s).1) = on_release s :=
  ⟨rfl, rfl, rfl⟩

/-- C10: an orthographic session is a pure translation: the press records no
initial scale whatever the modifier (scales are only recorded in the
perspective branch), a drag never mutates session state, and every effect of
an orthographic drag is a move or a refresh — never a scale call. -/
theorem ortho_session_pure_translation (nrm : Vec3 → Vec3) (envP envD : Env)
    (s t : ToolState) (hortho : envP.camIsOrtho = true)
    (hready : t.is_ready = true) (hto : t.is_ortho = true) :
    (on_press nrm envP s).1.initial_scales = [] ∧
    (on_drag envD t).1 = t ∧
    (∀ e ∈ (on_drag envD t).2, (∃ it p, e = Effect.move it p) ∨ e = Effect.refresh) := by
  refine ⟨on_press_ortho_no_scales nrm envP s hortho, on_drag_state envD t, ?_⟩
  intro e he
  rw [on_drag_ortho_trace envD t hready hto] at he
  simp only [List.mem_append, List.mem_map, List.mem_singleton] at he
  rcases he with ⟨i, _, rfl⟩ | rfl
  · exact Or.inl ⟨_, _, rfl⟩
  · exact Or.inr rfl

/-- C10 witness: the orthographic press/drag fixtures, with the compensation
modifier irrelevant. -/
theorem ortho_session_pure_translation_witness :
    envW.camIsOrtho = true ∧ sOrtho.is_ready = true ∧ sOrtho.is_ortho = true ∧
    ((on_press id envW initState).1.initial_scales = [] ∧
     (on_drag envDragHalf sOrtho).1 = sOrtho ∧
     (∀ e ∈ (on_drag envDragHalf sOrtho).2,
        (∃ it p, e = Effect.move it p) ∨ e = Effect.refresh)) :=
  ⟨rfl, rfl, rfl,
    ortho_session_pure_translation id envW envDragHalf initState sOrtho rfl rfl rfl⟩
